import Mathlib

/-!
Verification of the agent-to-agent (A2A) mailbox component of the
KB-multi-agent repository: `a2a_protocols.py` (typed message envelopes) and
`a2a_integration.py` (the in-memory communicator with per-agent queues and
optional send-time callbacks).

Modelling conventions:
* Python dicts keyed by agent identifier become functions
  `String → Option α` with pointwise update (`StrDict.set`).
* An `asyncio.Queue` holding pending messages becomes a `List A2AMessage`
  (head = next element `get` returns, `put` appends at the tail).
* `Any`-typed payload/metadata values become a JSON-like tree `JsonValue`.
* A registered coroutine callback is modelled by the one aspect of its
  behaviour that feeds back into the communicator: whether it raises on a
  given message (`A2AMessage → Bool`, `true` = raises).  Its invocations are
  recorded in an event trace emitted by `send_message`, so side effects such
  as "append the message to a list" are recoverable from the trace.
* `datetime` timestamps become opaque `Nat` instants.
-/

/-- JSON-like values, modelling Python `Any` as it appears in the
`Dict[str, Any]` fields of `a2a_protocols.py`. -/
inductive JsonValue where
  | null : JsonValue
  | bool (b : Bool) : JsonValue
  | num (n : Int) : JsonValue
  | str (s : String) : JsonValue
  | arr (elems : List JsonValue) : JsonValue
  | obj (fields : List (String × JsonValue)) : JsonValue
deriving Repr

/-- Python `TaskRequestPayload(BaseModel)`: `task_type: str`,
`parameters: Dict[str, Any]` (default `{}`), `context: Optional[Dict[str, Any]]`. -/
structure TaskRequestPayload where
  task_type : String
  parameters : List (String × JsonValue)
  context : Option (List (String × JsonValue))
deriving Repr

/-- Python `TaskResponsePayload(BaseModel)`: `success: bool`,
`result: Optional[Any]`, `error: Optional[str]`. -/
structure TaskResponsePayload where
  success : Bool
  result : Option JsonValue
  error : Option String
deriving Repr

/-- The `payload` field of `A2AMessage`:
`Union[TaskRequestPayload, TaskResponsePayload, Dict[str, Any]]`. -/
inductive Payload where
  | taskRequest (p : TaskRequestPayload) : Payload
  | taskResponse (p : TaskResponsePayload) : Payload
  | dict (fields : List (String × JsonValue)) : Payload
deriving Repr

/-- Python `A2AMessage(BaseModel)` from `a2a_protocols.py`:
`sender_agent_id: str`, `recipient_agent_id: str`, `message_type: str`,
`payload: Union[...]`, `timestamp: datetime` (defaulted at construction),
`metadata: Optional[Dict[str, Any]]`. -/
structure A2AMessage where
  sender_agent_id : String
  recipient_agent_id : String
  message_type : String
  payload : Payload
  timestamp : Nat
  metadata : Option (List (String × JsonValue))
deriving Repr

/-- Pydantic construction of `A2AMessage`.  The class body declares only type
annotations — no validators, no `Field` constraints on the string fields — so
pydantic accepts any values of the annotated types, including empty strings.
Construction therefore never fails in the model. -/
def A2AMessage.model_validate (sender recipient mtype : String)
    (payload : Payload) (timestamp : Nat)
    (metadata : Option (List (String × JsonValue))) : Except String A2AMessage :=
  Except.ok
    { sender_agent_id := sender
      recipient_agent_id := recipient
      message_type := mtype
      payload := payload
      timestamp := timestamp
      metadata := metadata }

/-- Pydantic attribute assignment on `A2AMessage` after construction.
`A2AMessage` declares no `Config`/`model_config`, so pydantic's defaults apply:
the model is not frozen (`allow_mutation`/non-`frozen` default) and assignment
`msg.message_type = v` is accepted, replacing the field value in place. -/
def A2AMessage.assign_message_type (m : A2AMessage) (v : String) : A2AMessage :=
  { m with message_type := v }

/-- A Python dict with string keys, modelled as a partial map. -/
def StrDict (α : Type) : Type := String → Option α

/-- Dict item assignment `d[k] = v`. -/
def StrDict.set {α : Type} (d : StrDict α) (k : String) (v : α) : StrDict α :=
  fun k' => if k' = k then some v else d k'

/-- Dict lookup with a default: the read half of `d.setdefault(k, dflt)`. -/
def StrDict.getD {α : Type} (d : StrDict α) (k : String) (dflt : α) : α :=
  (d k).getD dflt

/-- The state of `A2ACommunicator.__init__`: `self.queues` (per-agent message
queues) and `self.callbacks` (per-agent receipt callbacks), both dicts. -/
structure A2ACommunicator where
  queues : StrDict (List A2AMessage)
  callbacks : StrDict (A2AMessage → Bool)

/-- `A2ACommunicator()`: both dicts start empty. -/
def A2ACommunicator.mkEmpty : A2ACommunicator :=
  { queues := fun _ => none, callbacks := fun _ => none }

/-- Observable events of a `send_message` call, in execution order. -/
inductive A2AEvent where
  | enqueued (agent_id : String) (m : A2AMessage) : A2AEvent
  | callbackInvoked (agent_id : String) (m : A2AMessage) : A2AEvent
deriving Repr

/-- Result of `send_message`: the post-call communicator state, the events in
the order they happened, and whether an exception propagated to the caller
(only a raising callback can cause this; the enqueue itself cannot fail). -/
structure SendResult where
  comm : A2ACommunicator
  events : List A2AEvent
  raised : Bool

/-- Python `A2ACommunicator.send_message`:
`queue = self.queues.setdefault(message.recipient_agent_id, asyncio.Queue())`;
`await queue.put(message)`; then, if a callback is registered for the
recipient, `await self.callbacks[recipient](message)`.  The queue update is
performed before the callback runs, so the post-state holds the enqueued
message even when the callback raises. -/
def A2ACommunicator.send_message (comm : A2ACommunicator) (message : A2AMessage) :
    SendResult :=
  let r := message.recipient_agent_id
  let queue := comm.queues.getD r []
  let comm' : A2ACommunicator :=
    { comm with queues := comm.queues.set r (queue ++ [message]) }
  match comm.callbacks r with
  | some cb =>
      { comm := comm'
        events := [A2AEvent.enqueued r message, A2AEvent.callbackInvoked r message]
        raised := cb message }
  | none =>
      { comm := comm'
        events := [A2AEvent.enqueued r message]
        raised := false }

/-- Outcome of `receive_message`.  Python returns the dequeued message, or
`None` after catching `asyncio.TimeoutError`, or — when no timeout was given
and nothing is ever enqueued — suspends indefinitely (`blocked`). -/
inductive ReceiveResult where
  | msg (m : A2AMessage) : ReceiveResult
  | timedOut : ReceiveResult
  | blocked : ReceiveResult
deriving Repr

/-- Python `A2ACommunicator.receive_message`:
`queue = self.queues.setdefault(agent_id, asyncio.Queue())`; then
`await asyncio.wait_for(queue.get(), timeout=timeout)`, returning the message,
with `except asyncio.TimeoutError: return None`.  In this sequential model no
concurrent sender can run during the wait, so an empty queue yields `timedOut`
when a timeout was supplied and `blocked` when it was not; either way the
`setdefault` has materialised the (empty) queue. -/
def A2ACommunicator.receive_message (comm : A2ACommunicator) (agent_id : String)
    (timeout : Option Nat) : A2ACommunicator × ReceiveResult :=
  match comm.queues.getD agent_id [] with
  | m :: rest =>
      ({ comm with queues := comm.queues.set agent_id rest }, ReceiveResult.msg m)
  | [] =>
      ({ comm with queues := comm.queues.set agent_id [] },
       match timeout with
       | some _ => ReceiveResult.timedOut
       | none => ReceiveResult.blocked)

/-- Python `A2ACommunicator.register_callback`:
`self.callbacks[agent_id] = callback`. -/
def A2ACommunicator.register_callback (comm : A2ACommunicator) (agent_id : String)
    (callback : A2AMessage → Bool) : A2ACommunicator :=
  { comm with callbacks := comm.callbacks.set agent_id callback }

/-- Sequential composition of `send_message` calls, collecting the event
traces in order.  Each call's state effect is performed (the enqueue precedes
any callback, so it happens even for a raising callback). -/
def A2ACommunicator.sendAll (comm : A2ACommunicator) :
    List A2AMessage → A2ACommunicator × List A2AEvent
  | [] => (comm, [])
  | m :: rest =>
      let res := comm.send_message m
      let more := res.comm.sendAll rest
      (more.1, res.events ++ more.2)

/-- Sequential composition of `n` `receive_message` calls for one agent,
collecting the results in order. -/
def A2ACommunicator.receiveN (comm : A2ACommunicator) (agent_id : String)
    (timeout : Option Nat) : Nat → A2ACommunicator × List ReceiveResult
  | 0 => (comm, [])
  | n + 1 =>
      let step := comm.receive_message agent_id timeout
      let more := step.1.receiveN agent_id timeout n
      (more.1, step.2 :: more.2)

/-- The messages with which the callback of `agent_id` was invoked, read off
an event trace. -/
def callbackEvents (evs : List A2AEvent) (agent_id : String) : List A2AMessage :=
  evs.filterMap fun e =>
    match e with
    | A2AEvent.callbackInvoked a m => if a = agent_id then some m else none
    | A2AEvent.enqueued _ _ => none

/-- Modelled from the spec: the repository defines no wire form for the
envelope (the spec's interface section says the component "has no wire format
of its own", and its testable round-trip property is stated "if a wire form is
added").  Following the spec's data-model field list and its design note to
serialize the polymorphic payload as a tagged union dispatched on a tag, an
optional key/value mapping is encoded as JSON `null` or an object. -/
def serializeOptObj : Option (List (String × JsonValue)) → JsonValue
  | none => JsonValue.null
  | some kvs => JsonValue.obj kvs

/-- Modelled from the spec: inverse of `serializeOptObj`. -/
def deserializeOptObj : JsonValue → Option (Option (List (String × JsonValue)))
  | JsonValue.null => some none
  | JsonValue.obj kvs => some (some kvs)
  | _ => none

/-- Modelled from the spec: an optional JSON value is encoded as a one-element
array (so that an absent value and a present `null` stay distinguishable). -/
def serializeOptVal : Option JsonValue → JsonValue
  | none => JsonValue.null
  | some v => JsonValue.arr [v]

/-- Modelled from the spec: inverse of `serializeOptVal`. -/
def deserializeOptVal : JsonValue → Option (Option JsonValue)
  | JsonValue.null => some none
  | JsonValue.arr [v] => some (some v)
  | _ => none

/-- Modelled from the spec: an optional string is encoded as `null` or a
JSON string. -/
def serializeOptStr : Option String → JsonValue
  | none => JsonValue.null
  | some s => JsonValue.str s

/-- Modelled from the spec: inverse of `serializeOptStr`. -/
def deserializeOptStr : JsonValue → Option (Option String)
  | JsonValue.null => some none
  | JsonValue.str s => some (some s)
  | _ => none

/-- Modelled from the spec: wire form of the polymorphic payload, a tagged
union over the three shapes the spec's data model allows (task-request,
task-response, free-form mapping). -/
def serializePayload : Payload → JsonValue
  | Payload.taskRequest p =>
      JsonValue.obj [("tag", JsonValue.str "task_request"),
        ("task_type", JsonValue.str p.task_type),
        ("parameters", JsonValue.obj p.parameters),
        ("context", serializeOptObj p.context)]
  | Payload.taskResponse p =>
      JsonValue.obj [("tag", JsonValue.str "task_response"),
        ("success", JsonValue.bool p.success),
        ("result", serializeOptVal p.result),
        ("error", serializeOptStr p.error)]
  | Payload.dict fields =>
      JsonValue.obj [("tag", JsonValue.str "dict"),
        ("fields", JsonValue.obj fields)]

/-- Modelled from the spec: payload deserialization, dispatching exhaustively
on the tag as the spec's design notes prescribe; any other shape is rejected. -/
def deserializePayload : JsonValue → Option Payload
  | JsonValue.obj [("tag", JsonValue.str "task_request"),
      ("task_type", JsonValue.str t),
      ("parameters", JsonValue.obj ps),
      ("context", c)] =>
      (deserializeOptObj c).map fun ctx =>
        Payload.taskRequest { task_type := t, parameters := ps, context := ctx }
  | JsonValue.obj [("tag", JsonValue.str "task_response"),
      ("success", JsonValue.bool s),
      ("result", r),
      ("error", e)] =>
      match deserializeOptVal r, deserializeOptStr e with
      | some res, some err =>
          some (Payload.taskResponse { success := s, result := res, error := err })
      | _, _ => none
  | JsonValue.obj [("tag", JsonValue.str "dict"),
      ("fields", JsonValue.obj fs)] =>
      some (Payload.dict fs)
  | _ => none

/-- Modelled from the spec: wire form of a whole envelope, one JSON object
with the six fields of the spec's data model. -/
def serializeMessage (m : A2AMessage) : JsonValue :=
  JsonValue.obj [("sender_agent_id", JsonValue.str m.sender_agent_id),
    ("recipient_agent_id", JsonValue.str m.recipient_agent_id),
    ("message_type", JsonValue.str m.message_type),
    ("payload", serializePayload m.payload),
    ("timestamp", JsonValue.num (Int.ofNat m.timestamp)),
    ("metadata", serializeOptObj m.metadata)]

/-- Modelled from the spec: envelope deserialization; any other shape is
rejected. -/
def deserializeMessage : JsonValue → Option A2AMessage
  | JsonValue.obj [("sender_agent_id", JsonValue.str s),
      ("recipient_agent_id", JsonValue.str r),
      ("message_type", JsonValue.str t),
      ("payload", p),
      ("timestamp", JsonValue.num (Int.ofNat ts)),
      ("metadata", md)] =>
      match deserializePayload p, deserializeOptObj md with
      | some pl, some meta =>
          some { sender_agent_id := s, recipient_agent_id := r,
                 message_type := t, payload := pl, timestamp := ts,
                 metadata := meta }
      | _, _ => none
  | _ => none

/-! Helper lemmas about dict update and the communicator operations. -/

theorem StrDict.set_same {α : Type} (d : StrDict α) (k : String) (v : α) :
    d.set k v k = some v := by
  simp [StrDict.set]

theorem StrDict.set_other {α : Type} (d : StrDict α) (k k' : String) (v : α)
    (h : k' ≠ k) : d.set k v k' = d k' := by
  simp [StrDict.set, h]

theorem A2ACommunicator.send_message_queues (comm : A2ACommunicator)
    (m : A2AMessage) :
    (comm.send_message m).comm.queues =
      comm.queues.set m.recipient_agent_id
        (comm.queues.getD m.recipient_agent_id [] ++ [m]) := by
  cases h : comm.callbacks m.recipient_agent_id <;>
    simp [A2ACommunicator.send_message, h]

theorem A2ACommunicator.send_message_callbacks (comm : A2ACommunicator)
    (m : A2AMessage) :
    (comm.send_message m).comm.callbacks = comm.callbacks := by
  cases h : comm.callbacks m.recipient_agent_id <;>
    simp [A2ACommunicator.send_message, h]

theorem A2ACommunicator.send_message_events_some (comm : A2ACommunicator)
    (m : A2AMessage) (cb : A2AMessage → Bool)
    (h : comm.callbacks m.recipient_agent_id = some cb) :
    (comm.send_message m).events =
      [A2AEvent.enqueued m.recipient_agent_id m,
       A2AEvent.callbackInvoked m.recipient_agent_id m] := by
  simp [A2ACommunicator.send_message, h]

theorem A2ACommunicator.send_message_events_none (comm : A2ACommunicator)
    (m : A2AMessage) (h : comm.callbacks m.recipient_agent_id = none) :
    (comm.send_message m).events = [A2AEvent.enqueued m.recipient_agent_id m] := by
  simp [A2ACommunicator.send_message, h]

theorem A2ACommunicator.send_message_raised_some (comm : A2ACommunicator)
    (m : A2AMessage) (cb : A2AMessage → Bool)
    (h : comm.callbacks m.recipient_agent_id = some cb) :
    (comm.send_message m).raised = cb m := by
  simp [A2ACommunicator.send_message, h]

theorem A2ACommunicator.send_message_raised_none (comm : A2ACommunicator)
    (m : A2AMessage) (h : comm.callbacks m.recipient_agent_id = none) :
    (comm.send_message m).raised = false := by
  simp [A2ACommunicator.send_message, h]

theorem A2ACommunicator.sendAll_callbacks (comm : A2ACommunicator)
    (msgs : List A2AMessage) :
    (comm.sendAll msgs).1.callbacks = comm.callbacks := by
  induction msgs generalizing comm with
  | nil => rfl
  | cons m rest ih =>
      calc (comm.sendAll (m :: rest)).1.callbacks
          = ((comm.send_message m).comm.sendAll rest).1.callbacks := rfl
        _ = (comm.send_message m).comm.callbacks := ih _
        _ = comm.callbacks := A2ACommunicator.send_message_callbacks comm m

theorem A2ACommunicator.sendAll_queue (comm : A2ACommunicator) (r : String)
    (msgs : List A2AMessage) (h : ∀ m ∈ msgs, m.recipient_agent_id = r) :
    (comm.sendAll msgs).1.queues.getD r [] = comm.queues.getD r [] ++ msgs := by
  induction msgs generalizing comm with
  | nil => simp [A2ACommunicator.sendAll]
  | cons m rest ih =>
      have hm : m.recipient_agent_id = r := h m (by simp)
      have hq : (comm.send_message m).comm.queues.getD r [] =
          comm.queues.getD r [] ++ [m] := by
        rw [A2ACommunicator.send_message_queues, hm]
        simp [StrDict.getD, StrDict.set_same]
      calc (comm.sendAll (m :: rest)).1.queues.getD r []
          = ((comm.send_message m).comm.sendAll rest).1.queues.getD r [] := rfl
        _ = (comm.send_message m).comm.queues.getD r [] ++ rest :=
            ih _ (fun x hx => h x (List.mem_cons_of_mem m hx))
        _ = (comm.queues.getD r [] ++ [m]) ++ rest := by rw [hq]
        _ = comm.queues.getD r [] ++ (m :: rest) := by simp

theorem A2ACommunicator.receiveN_drain (comm : A2ACommunicator)
    (agent_id : String) (t : Option Nat) (l : List A2AMessage)
    (h : comm.queues.getD agent_id [] = l) :
    (comm.receiveN agent_id t l.length).2 = l.map ReceiveResult.msg := by
  induction l generalizing comm with
  | nil => rfl
  | cons m rest ih =>
      have hstep : comm.receive_message agent_id t =
          ({ comm with queues := comm.queues.set agent_id rest },
           ReceiveResult.msg m) := by
        simp [A2ACommunicator.receive_message, h]
      calc (comm.receiveN agent_id t (m :: rest).length).2
          = (comm.receive_message agent_id t).2 ::
              ((comm.receive_message agent_id t).1.receiveN agent_id t
                rest.length).2 := rfl
        _ = ReceiveResult.msg m :: rest.map ReceiveResult.msg := by
            rw [hstep]
            exact congrArg _ (ih _ (by simp [StrDict.getD, StrDict.set_same]))
        _ = (m :: rest).map ReceiveResult.msg := rfl

theorem callbackEvents_append (evs evs' : List A2AEvent) (agent_id : String) :
    callbackEvents (evs ++ evs') agent_id =
      callbackEvents evs agent_id ++ callbackEvents evs' agent_id := by
  simp [callbackEvents, List.filterMap_append]

theorem A2ACommunicator.sendAll_callbackEvents (comm : A2ACommunicator)
    (r : String) (cb : A2AMessage → Bool) (msgs : List A2AMessage)
    (hcb : comm.callbacks r = some cb)
    (hrec : ∀ m ∈ msgs, m.recipient_agent_id = r) :
    callbackEvents (comm.sendAll msgs).2 r = msgs := by
  induction msgs generalizing comm with
  | nil => rfl
  | cons m rest ih =>
      have hm : m.recipient_agent_id = r := hrec m (by simp)
      have hsome : comm.callbacks m.recipient_agent_id = some cb := by
        rw [hm]; exact hcb
      have hev : (comm.send_message m).events =
          [A2AEvent.enqueued r m, A2AEvent.callbackInvoked r m] := by
        rw [A2ACommunicator.send_message_events_some comm m cb hsome, hm]
      have hcb' : (comm.send_message m).comm.callbacks r = some cb := by
        rw [A2ACommunicator.send_message_callbacks]; exact hcb
      calc callbackEvents (comm.sendAll (m :: rest)).2 r
          = callbackEvents ((comm.send_message m).events ++
              ((comm.send_message m).comm.sendAll rest).2) r := rfl
        _ = callbackEvents (comm.send_message m).events r ++
              callbackEvents ((comm.send_message m).comm.sendAll rest).2 r :=
            callbackEvents_append _ _ _
        _ = [m] ++ rest := by
            rw [hev, ih _ hcb' (fun x hx => hrec x (List.mem_cons_of_mem m hx))]
            simp [callbackEvents]
        _ = m :: rest := rfl

theorem A2ACommunicator.receive_message_queues_nil (comm : A2ACommunicator)
    (agent_id : String) (t : Option Nat)
    (h : comm.queues.getD agent_id [] = []) :
    (comm.receive_message agent_id t).1.queues = comm.queues.set agent_id [] := by
  simp [A2ACommunicator.receive_message, h]

theorem A2ACommunicator.receive_message_result_nil (comm : A2ACommunicator)
    (agent_id : String) (t : Option Nat)
    (h : comm.queues.getD agent_id [] = []) :
    (comm.receive_message agent_id t).2 =
      (match t with
       | some _ => ReceiveResult.timedOut
       | none => ReceiveResult.blocked) := by
  simp [A2ACommunicator.receive_message, h]

theorem A2ACommunicator.receive_message_cons (comm : A2ACommunicator)
    (agent_id : String) (t : Option Nat) (m : A2AMessage)
    (rest : List A2AMessage) (h : comm.queues.getD agent_id [] = m :: rest) :
    (comm.receive_message agent_id t).1.queues = comm.queues.set agent_id rest ∧
    (comm.receive_message agent_id t).2 = ReceiveResult.msg m := by
  constructor <;> simp [A2ACommunicator.receive_message, h]

theorem StrDict.getD_eq_cons {α : Type} (d : StrDict (List α)) (k : String)
    (x : α) (xs : List α) (h : d.getD k [] = x :: xs) : d k = some (x :: xs) := by
  cases hd : d k with
  | none => simp [StrDict.getD, hd] at h
  | some q =>
      simp [StrDict.getD, hd] at h
      exact congrArg some h

theorem deserializeOptObj_serializeOptObj
    (o : Option (List (String × JsonValue))) :
    deserializeOptObj (serializeOptObj o) = some o := by
  cases o <;> rfl

theorem deserializeOptVal_serializeOptVal (o : Option JsonValue) :
    deserializeOptVal (serializeOptVal o) = some o := by
  cases o <;> rfl

theorem deserializeOptStr_serializeOptStr (o : Option String) :
    deserializeOptStr (serializeOptStr o) = some o := by
  cases o <;> rfl

theorem deserializePayload_serializePayload (p : Payload) :
    deserializePayload (serializePayload p) = some p := by
  cases p with
  | taskRequest q =>
      cases q with
      | mk t ps c =>
          simp [serializePayload, deserializePayload,
            deserializeOptObj_serializeOptObj]
  | taskResponse q =>
      cases q with
      | mk s r e =>
          simp [serializePayload, deserializePayload,
            deserializeOptVal_serializeOptVal, deserializeOptStr_serializeOptStr]
  | dict fs => rfl

theorem deserializeMessage_serializeMessage (m : A2AMessage) :
    deserializeMessage (serializeMessage m) = some m := by
  cases m with
  | mk s r t p ts md =>
      have h1 := deserializePayload_serializePayload p
      have h2 := deserializeOptObj_serializeOptObj md
      simp only [serializeMessage, deserializeMessage, h1, h2]

/-- Sample envelope used by the concrete witnesses: sender "A", the given
recipient, a free-form payload carrying the given tag. -/
def sampleMsg (r tag : String) : A2AMessage :=
  { sender_agent_id := "A"
    recipient_agent_id := r
    message_type := "status"
    payload := Payload.dict [("tag", JsonValue.str tag)]
    timestamp := 0
    metadata := none }

/-- Sample callback that completes normally on every message. -/
def cbNever : A2AMessage → Bool := fun _ => false

/-- Sample callback that raises on every message. -/
def cbAlways : A2AMessage → Bool := fun _ => true

/-- C1: for every sequence of sends addressed to the same recipient with no
interleaved receive for it, subsequent receives for that recipient return the
messages in exactly the order they were sent (strict FIFO per recipient
queue). -/
theorem C1_fifo_per_recipient (comm : A2ACommunicator) (r : String)
    (msgs : List A2AMessage) (t : Option Nat)
    (hrec : ∀ m ∈ msgs, m.recipient_agent_id = r)
    (hq : comm.queues.getD r [] = []) :
    ((comm.sendAll msgs).1.receiveN r t msgs.length).2 =
      msgs.map ReceiveResult.msg := by
  have hall := A2ACommunicator.sendAll_queue comm r msgs hrec
  rw [hq] at hall
  exact A2ACommunicator.receiveN_drain _ r t msgs (by rw [hall]; rfl)

/-- C1 witness: the spec's scenario — three envelopes to "B" with payload
tags "1","2","3"; three receives return them in that order. -/
theorem C1_fifo_per_recipient_witness :
    ((A2ACommunicator.mkEmpty.sendAll
        [sampleMsg "B" "1", sampleMsg "B" "2", sampleMsg "B" "3"]).1.receiveN
      "B" none 3).2 =
      [ReceiveResult.msg (sampleMsg "B" "1"), ReceiveResult.msg (sampleMsg "B" "2"),
       ReceiveResult.msg (sampleMsg "B" "3")] :=
  C1_fifo_per_recipient A2ACommunicator.mkEmpty "B"
    [sampleMsg "B" "1", sampleMsg "B" "2", sampleMsg "B" "3"] none
    (by decide) rfl

/-- C2: receive with a timeout on a queue in which no message arrives returns
the absent sentinel (Python `None`), not a message, and raises nothing — the
`TimeoutError` is caught inside `receive_message`. -/
theorem C2_timeout_returns_sentinel (comm : A2ACommunicator) (agent_id : String)
    (t : Nat) (hq : comm.queues.getD agent_id [] = []) :
    (comm.receive_message agent_id (some t)).2 = ReceiveResult.timedOut ∧
    ∀ m : A2AMessage,
      (comm.receive_message agent_id (some t)).2 ≠ ReceiveResult.msg m := by
  have h : (comm.receive_message agent_id (some t)).2 = ReceiveResult.timedOut :=
    A2ACommunicator.receive_message_result_nil comm agent_id (some t) hq
  exact ⟨h, fun m hc => by rw [h] at hc; cases hc⟩

/-- C2 witness: the spec's scenario — receive on "X" with a timeout and no
prior send returns the sentinel. -/
theorem C2_timeout_returns_sentinel_witness :
    (A2ACommunicator.mkEmpty.receive_message "X" (some 1)).2 =
        ReceiveResult.timedOut ∧
    ∀ m : A2AMessage,
      (A2ACommunicator.mkEmpty.receive_message "X" (some 1)).2 ≠
        ReceiveResult.msg m :=
  C2_timeout_returns_sentinel A2ACommunicator.mkEmpty "X" 1 rfl

/-- C3: with a callback registered for the recipient, send appends the very
envelope to the queue and then invokes the callback exactly once with that
same envelope — the event trace is the enqueue followed by one callback
invocation — and send's outcome incorporates the callback's completion. -/
theorem C3_callback_invoked_once_after_enqueue (comm : A2ACommunicator)
    (m : A2AMessage) (cb : A2AMessage → Bool)
    (h : comm.callbacks m.recipient_agent_id = some cb) :
    (comm.send_message m).events =
      [A2AEvent.enqueued m.recipient_agent_id m,
       A2AEvent.callbackInvoked m.recipient_agent_id m] ∧
    (comm.send_message m).comm.queues m.recipient_agent_id =
      some (comm.queues.getD m.recipient_agent_id [] ++ [m]) ∧
    (comm.send_message m).raised = cb m := by
  refine ⟨A2ACommunicator.send_message_events_some comm m cb h, ?_,
    A2ACommunicator.send_message_raised_some comm m cb h⟩
  rw [A2ACommunicator.send_message_queues]
  exact StrDict.set_same _ _ _

/-- C3 witness: a callback registered on "Y", then one send to "Y". -/
theorem C3_callback_invoked_once_after_enqueue_witness :
    ((A2ACommunicator.mkEmpty.register_callback "Y" cbNever).send_message
        (sampleMsg "Y" "1")).events =
      [A2AEvent.enqueued "Y" (sampleMsg "Y" "1"),
       A2AEvent.callbackInvoked "Y" (sampleMsg "Y" "1")] ∧
    ((A2ACommunicator.mkEmpty.register_callback "Y" cbNever).send_message
        (sampleMsg "Y" "1")).comm.queues "Y" = some [sampleMsg "Y" "1"] ∧
    ((A2ACommunicator.mkEmpty.register_callback "Y" cbNever).send_message
        (sampleMsg "Y" "1")).raised = cbNever (sampleMsg "Y" "1") :=
  C3_callback_invoked_once_after_enqueue
    (A2ACommunicator.mkEmpty.register_callback "Y" cbNever)
    (sampleMsg "Y" "1") cbNever rfl

/-- C4: callback delivery is in addition to enqueueing — after n sends to an
identifier with a registered callback, the callback has run once per message
(n times, with those messages), and n receives still return all n messages in
order. -/
theorem C4_callback_does_not_consume (comm : A2ACommunicator) (r : String)
    (cb : A2AMessage → Bool) (msgs : List A2AMessage) (t : Option Nat)
    (hcb : comm.callbacks r = some cb)
    (hrec : ∀ m ∈ msgs, m.recipient_agent_id = r)
    (hq : comm.queues.getD r [] = []) :
    (callbackEvents (comm.sendAll msgs).2 r).length = msgs.length ∧
    callbackEvents (comm.sendAll msgs).2 r = msgs ∧
    ((comm.sendAll msgs).1.receiveN r t msgs.length).2 =
      msgs.map ReceiveResult.msg := by
  have he := A2ACommunicator.sendAll_callbackEvents comm r cb msgs hcb hrec
  have hall := A2ACommunicator.sendAll_queue comm r msgs hrec
  rw [hq] at hall
  exact ⟨by rw [he], he,
    A2ACommunicator.receiveN_drain _ r t msgs (by rw [hall]; rfl)⟩

/-- C4 witness: the spec's scenario — a callback on "Y", two sends to "Y";
the callback ran twice and two receives still return both messages. -/
theorem C4_callback_does_not_consume_witness :
    (callbackEvents ((A2ACommunicator.mkEmpty.register_callback "Y"
        cbNever).sendAll [sampleMsg "Y" "1", sampleMsg "Y" "2"]).2 "Y").length = 2 ∧
    callbackEvents ((A2ACommunicator.mkEmpty.register_callback "Y"
        cbNever).sendAll [sampleMsg "Y" "1", sampleMsg "Y" "2"]).2 "Y" =
      [sampleMsg "Y" "1", sampleMsg "Y" "2"] ∧
    (((A2ACommunicator.mkEmpty.register_callback "Y" cbNever).sendAll
        [sampleMsg "Y" "1", sampleMsg "Y" "2"]).1.receiveN "Y" none 2).2 =
      [ReceiveResult.msg (sampleMsg "Y" "1"), ReceiveResult.msg (sampleMsg "Y" "2")] :=
  C4_callback_does_not_consume
    (A2ACommunicator.mkEmpty.register_callback "Y" cbNever) "Y" cbNever
    [sampleMsg "Y" "1", sampleMsg "Y" "2"] none rfl (by decide) rfl

/-- C5: sending to a never-seen recipient raises no error — the queue is
created on first use and holds exactly the message — and receiving for a
never-seen identifier creates its (empty) queue instead of failing. -/
theorem C5_lazy_queue_creation (comm : A2ACommunicator) (m : A2AMessage)
    (agent_id : String) (t : Option Nat)
    (hs : comm.queues m.recipient_agent_id = none)
    (hcb : comm.callbacks m.recipient_agent_id = none)
    (hr : comm.queues agent_id = none) :
    ((comm.send_message m).comm.queues m.recipient_agent_id = some [m] ∧
     (comm.send_message m).raised = false) ∧
    ((comm.receive_message agent_id t).1.queues agent_id = some [] ∧
     ∀ mm : A2AMessage,
       (comm.receive_message agent_id t).2 ≠ ReceiveResult.msg mm) := by
  have hq : comm.queues.getD agent_id [] = [] := by simp [StrDict.getD, hr]
  refine ⟨⟨?_, A2ACommunicator.send_message_raised_none comm m hcb⟩, ?_, ?_⟩
  · rw [A2ACommunicator.send_message_queues, StrDict.set_same]
    simp [StrDict.getD, hs]
  · rw [A2ACommunicator.receive_message_queues_nil comm agent_id t hq]
    exact StrDict.set_same _ _ _
  · intro mm hc
    rw [A2ACommunicator.receive_message_result_nil comm agent_id t hq] at hc
    cases t <;> simp at hc

/-- C5 witness: a fresh communicator — send to the never-seen "B" succeeds and
creates its queue; receive for the never-seen "X" creates its empty queue. -/
theorem C5_lazy_queue_creation_witness :
    ((A2ACommunicator.mkEmpty.send_message (sampleMsg "B" "1")).comm.queues "B" =
        some [sampleMsg "B" "1"] ∧
     (A2ACommunicator.mkEmpty.send_message (sampleMsg "B" "1")).raised = false) ∧
    ((A2ACommunicator.mkEmpty.receive_message "X" (some 1)).1.queues "X" =
        some [] ∧
     ∀ mm : A2AMessage,
       (A2ACommunicator.mkEmpty.receive_message "X" (some 1)).2 ≠
         ReceiveResult.msg mm) :=
  C5_lazy_queue_creation A2ACommunicator.mkEmpty (sampleMsg "B" "1") "X"
    (some 1) rfl rfl rfl

/-- C6 counterexample: the envelope type does not forbid field mutation after
construction — `A2AMessage` is a pydantic model with no frozen config, so
attribute assignment is accepted and yields an envelope that differs from the
original. -/
theorem C6_counterexample_mutation_accepted :
    A2AMessage.assign_message_type (sampleMsg "B" "1") "changed" ≠
      sampleMsg "B" "1" := by
  intro h
  have h2 : "changed" = "status" := congrArg A2AMessage.message_type h
  exact absurd h2 (by decide)

/-- C6 amended: the communicator's operations never alter an envelope's
fields — after a send every queued envelope is the sent one or one already
queued unchanged, after a receive every queued envelope was already queued and
a returned envelope came unchanged off that agent's queue — but the envelope
type itself does not forbid field mutation after construction (the pydantic
model is not frozen, so assignment takes effect). -/
theorem C6_envelopes_moved_whole (comm : A2ACommunicator) (m : A2AMessage)
    (agent_id : String) (t : Option Nat) :
    (∀ i q', (comm.send_message m).comm.queues i = some q' →
      ∀ x ∈ q', x = m ∨ ∃ q, comm.queues i = some q ∧ x ∈ q) ∧
    (∀ i q', (comm.receive_message agent_id t).1.queues i = some q' →
      ∀ x ∈ q', ∃ q, comm.queues i = some q ∧ x ∈ q) ∧
    (∀ mm, (comm.receive_message agent_id t).2 = ReceiveResult.msg mm →
      ∃ q, comm.queues agent_id = some q ∧ mm ∈ q) ∧
    (∀ v, (A2AMessage.assign_message_type m v).message_type = v) := by
  refine ⟨?_, ?_, ?_, fun v => rfl⟩
  · intro i q' hq' x hx
    rw [A2ACommunicator.send_message_queues] at hq'
    by_cases hi : i = m.recipient_agent_id
    · subst hi
      rw [StrDict.set_same] at hq'
      injection hq' with hq'
      subst hq'
      rcases List.mem_append.mp hx with hx | hx
      · right
        cases hc : comm.queues m.recipient_agent_id with
        | none => simp [StrDict.getD, hc] at hx
        | some q => exact ⟨q, rfl, by simpa [StrDict.getD, hc] using hx⟩
      · left
        simpa using hx
    · rw [StrDict.set_other _ _ _ _ hi] at hq'
      exact Or.inr ⟨q', hq', hx⟩
  · intro i q' hq' x hx
    cases hqa : comm.queues.getD agent_id [] with
    | nil =>
        rw [A2ACommunicator.receive_message_queues_nil comm agent_id t hqa] at hq'
        by_cases hi : i = agent_id
        · subst hi
          rw [StrDict.set_same] at hq'
          injection hq' with hq'
          subst hq'
          cases hx
        · rw [StrDict.set_other _ _ _ _ hi] at hq'
          exact ⟨q', hq', hx⟩
    | cons m0 rest =>
        rw [(A2ACommunicator.receive_message_cons comm agent_id t m0 rest hqa).1]
          at hq'
        by_cases hi : i = agent_id
        · subst hi
          rw [StrDict.set_same] at hq'
          injection hq' with hq'
          subst hq'
          exact ⟨m0 :: rest, StrDict.getD_eq_cons _ _ _ _ hqa,
            List.mem_cons_of_mem m0 hx⟩
        · rw [StrDict.set_other _ _ _ _ hi] at hq'
          exact ⟨q', hq', hx⟩
  · intro mm hmm
    cases hqa : comm.queues.getD agent_id [] with
    | nil =>
        rw [A2ACommunicator.receive_message_result_nil comm agent_id t hqa] at hmm
        cases t <;> simp at hmm
    | cons m0 rest =>
        rw [(A2ACommunicator.receive_message_cons comm agent_id t m0 rest hqa).2]
          at hmm
        injection hmm with hmm
        subst hmm
        exact ⟨m0 :: rest, StrDict.getD_eq_cons _ _ _ _ hqa,
          List.mem_cons_self m0 rest⟩

/-- C6 amended witness: a concrete send on a fresh communicator — the sole
queued envelope is the sent one — and assignment on a concrete envelope takes
effect. -/
theorem C6_envelopes_moved_whole_witness :
    (sampleMsg "B" "1" = sampleMsg "B" "1" ∨
      ∃ q, A2ACommunicator.mkEmpty.queues "B" = some q ∧ sampleMsg "B" "1" ∈ q) ∧
    (A2AMessage.assign_message_type (sampleMsg "B" "1") "changed").message_type =
      "changed" := by
  have h := C6_envelopes_moved_whole A2ACommunicator.mkEmpty (sampleMsg "B" "1")
    "X" (some 1)
  exact ⟨h.1 "B" [sampleMsg "B" "1"] rfl (sampleMsg "B" "1") (by simp),
    h.2.2.2 "changed"⟩

/-- C7 counterexample: construction of an envelope with an empty recipient
identifier is not rejected — pydantic validates only the field's type, and the
empty string is a `str`. -/
theorem C7_counterexample_empty_recipient_accepted :
    A2AMessage.model_validate "agent-a" "" "status" (Payload.dict []) 0 none =
      Except.ok
        { sender_agent_id := "agent-a"
          recipient_agent_id := ""
          message_type := "status"
          payload := Payload.dict []
          timestamp := 0
          metadata := none } := rfl

/-- C7 amended: construction accepts any string recipient identifier,
including the empty string (non-emptiness is never validated), and the
recipient identifier is the sole routing key: send's entire effect on the
queue table is an update at exactly the recipient's key. -/
theorem C7_recipient_not_validated_sole_routing_key (comm : A2ACommunicator)
    (m : A2AMessage) (sender mtype : String) (p : Payload) (ts : Nat)
    (md : Option (List (String × JsonValue))) :
    (∃ msg, A2AMessage.model_validate sender "" mtype p ts md = Except.ok msg ∧
      msg.recipient_agent_id = "") ∧
    (comm.send_message m).comm.queues =
      comm.queues.set m.recipient_agent_id
        (comm.queues.getD m.recipient_agent_id [] ++ [m]) :=
  ⟨⟨_, rfl, rfl⟩, A2ACommunicator.send_message_queues comm m⟩

/-- C8: serializing any envelope — any payload shape, any field values — and
deserializing the result yields the original envelope, field for field. -/
theorem C8_roundtrip_lossless (m : A2AMessage) :
    deserializeMessage (serializeMessage m) = some m :=
  deserializeMessage_serializeMessage m

/-- C9: when the callback registered for the recipient raises, the exception
propagates out of send, yet the message remains enqueued — the enqueue that
preceded the callback invocation is not rolled back. -/
theorem C9_raising_callback_keeps_enqueue (comm : A2ACommunicator)
    (m : A2AMessage) (cb : A2AMessage → Bool)
    (hcb : comm.callbacks m.recipient_agent_id = some cb)
    (hraise : cb m = true) :
    (comm.send_message m).raised = true ∧
    (comm.send_message m).comm.queues m.recipient_agent_id =
      some (comm.queues.getD m.recipient_agent_id [] ++ [m]) := by
  constructor
  · rw [A2ACommunicator.send_message_raised_some comm m cb hcb, hraise]
  · rw [A2ACommunicator.send_message_queues]
    exact StrDict.set_same _ _ _

/-- C9 witness: an always-raising callback on "Y"; the send raises and the
message is nevertheless in "Y"'s queue. -/
theorem C9_raising_callback_keeps_enqueue_witness :
    ((A2ACommunicator.mkEmpty.register_callback "Y" cbAlways).send_message
        (sampleMsg "Y" "1")).raised = true ∧
    ((A2ACommunicator.mkEmpty.register_callback "Y" cbAlways).send_message
        (sampleMsg "Y" "1")).comm.queues "Y" = some [sampleMsg "Y" "1"] :=
  C9_raising_callback_keeps_enqueue
    (A2ACommunicator.mkEmpty.register_callback "Y" cbAlways)
    (sampleMsg "Y" "1") cbAlways rfl rfl

/-- C10: frame properties — send changes no queue other than the recipient's
and leaves the whole callback table untouched; register_callback changes no
queue at all and no callback entry other than its own agent's. -/
theorem C10_send_and_register_frame (comm : A2ACommunicator) (m : A2AMessage)
    (other a : String) (cb : A2AMessage → Bool) :
    (other ≠ m.recipient_agent_id →
      (comm.send_message m).comm.queues other = comm.queues other) ∧
    (comm.send_message m).comm.callbacks = comm.callbacks ∧
    (comm.register_callback a cb).queues = comm.queues ∧
    (other ≠ a →
      (comm.register_callback a cb).callbacks other = comm.callbacks other) := by
  refine ⟨fun h => ?_, A2ACommunicator.send_message_callbacks comm m, rfl,
    fun h => ?_⟩
  · rw [A2ACommunicator.send_message_queues]
    exact StrDict.set_other _ _ _ _ h
  · exact StrDict.set_other _ _ _ _ h

/-- C10 witness: a send to "B" leaves "X"'s queue and the callback table
unchanged; a registration on "Y" leaves the queues and "X"'s callback entry
unchanged. -/
theorem C10_send_and_register_frame_witness :
    (A2ACommunicator.mkEmpty.send_message (sampleMsg "B" "1")).comm.queues "X" =
        A2ACommunicator.mkEmpty.queues "X" ∧
    (A2ACommunicator.mkEmpty.send_message
        (sampleMsg "B" "1")).comm.callbacks = A2ACommunicator.mkEmpty.callbacks ∧
    (A2ACommunicator.mkEmpty.register_callback "Y" cbNever).queues =
        A2ACommunicator.mkEmpty.queues ∧
    (A2ACommunicator.mkEmpty.register_callback "Y" cbNever).callbacks "X" =
        A2ACommunicator.mkEmpty.callbacks "X" := by
  have h := C10_send_and_register_frame A2ACommunicator.mkEmpty
    (sampleMsg "B" "1") "X" "Y" cbNever
  exact ⟨h.1 (by decide), h.2.1, h.2.2.1, h.2.2.2 (by decide)⟩
